import Mathlib

/-!
Verification development for the Ahrefs Top Pages Analyzer (src/app.py).

The analyzer is a pandas pipeline.  We embed the numeric model shallowly:
a pandas float cell is either a rational number, positive infinity,
negative infinity, or NaN (missing).  Series are lists of such values,
indexed positionally, and each vectorized pandas expression from the
source is translated index-wise.
-/

/-- A pandas float cell: a rational, an infinity, or NaN (missing value). -/
inductive FVal where
  | nan : FVal
  | inf : FVal
  | ninf : FVal
  | num (q : ℚ) : FVal
deriving DecidableEq, Repr

/-- IEEE-style addition on cells, as numpy performs it. -/
def FVal.add : FVal → FVal → FVal
  | num a, num b => num (a + b)
  | nan, _ => nan
  | _, nan => nan
  | inf, ninf => nan
  | ninf, inf => nan
  | inf, _ => inf
  | _, inf => inf
  | ninf, _ => ninf
  | _, ninf => ninf

/-- IEEE-style subtraction on cells. -/
def FVal.sub : FVal → FVal → FVal
  | num a, num b => num (a - b)
  | nan, _ => nan
  | _, nan => nan
  | inf, inf => nan
  | ninf, ninf => nan
  | inf, _ => inf
  | ninf, _ => ninf
  | _, inf => ninf
  | _, ninf => inf

/-- IEEE-style multiplication on cells. -/
def FVal.mul : FVal → FVal → FVal
  | num a, num b => num (a * b)
  | nan, _ => nan
  | _, nan => nan
  | inf, inf => inf
  | inf, ninf => ninf
  | ninf, inf => ninf
  | ninf, ninf => inf
  | inf, num b => if 0 < b then inf else if b < 0 then ninf else nan
  | num a, inf => if 0 < a then inf else if a < 0 then ninf else nan
  | ninf, num b => if 0 < b then ninf else if b < 0 then inf else nan
  | num a, ninf => if 0 < a then ninf else if a < 0 then inf else nan

/-- IEEE-style division on cells: a finite value divided by zero gives a
signed infinity, and zero divided by zero gives NaN, exactly as numpy and
pandas evaluate elementwise division (no exception is raised). -/
def FVal.div : FVal → FVal → FVal
  | num a, num b =>
      if b = 0 then (if 0 < a then inf else if a < 0 then ninf else nan)
      else num (a / b)
  | nan, _ => nan
  | _, nan => nan
  | inf, inf => nan
  | inf, ninf => nan
  | ninf, inf => nan
  | ninf, ninf => nan
  | inf, num b => if 0 ≤ b then inf else ninf
  | ninf, num b => if 0 ≤ b then ninf else inf
  | num _, inf => num 0
  | num _, ninf => num 0

/-- The test used by pandas isna: true exactly on NaN (infinities are not
missing values). -/
def FVal.isna : FVal → Bool
  | nan => true
  | _ => false

/-- The elementwise fillna(0) of pandas: NaN becomes 0, all else kept. -/
def FVal.fillna0 : FVal → FVal
  | nan => num 0
  | v => v

/-- The float comparison v > 0, as numpy evaluates it: NaN compares false. -/
def FVal.gtZero : FVal → Bool
  | num a => decide (0 < a)
  | inf => true
  | _ => false

/-- The float comparison a > b, as Python evaluates it: NaN compares false. -/
def FVal.fgt : FVal → FVal → Bool
  | nan, _ => false
  | _, nan => false
  | num a, num b => decide (b < a)
  | inf, inf => false
  | inf, _ => true
  | ninf, _ => false
  | num _, inf => false
  | num _, ninf => true

/-- The rational carried by a finite cell, 0 otherwise. -/
def FVal.qOf : FVal → ℚ
  | num q => q
  | _ => 0

/-- src/app.py line 68: pages added per period,
df page diff() fillna(0) — position 0 has no predecessor, so its NaN
difference is filled with 0. -/
def pagesAdded (p : List ℚ) : List ℚ :=
  (List.range p.length).map (fun i => if i = 0 then 0 else p.getD i 0 - p.getD (i - 1) 0)

/-- src/app.py line 69: page change rate,
pagesAdded divided by (page shift(1) + pagesAdded) with an exact zero in the
denominator replaced by NaN, times 100.  The shifted value at position 0 is
NaN, so the denominator there is NaN. -/
def pageChangeRate (p : List ℚ) : List FVal :=
  (List.range p.length).map (fun i =>
    let pa : FVal := FVal.num ((pagesAdded p).getD i 0)
    let denom : FVal :=
      FVal.add (if i = 0 then FVal.nan else FVal.num (p.getD (i - 1) 0)) pa
    let denom2 : FVal := if denom = FVal.num 0 then FVal.nan else denom
    (pa.div denom2).mul (FVal.num 100))

/-- src/app.py line 72: traffic per page, the elementwise float quotient of
the traffic column by the pages column. -/
def trafficPerPage (t p : List ℚ) : List FVal :=
  (List.range t.length).map (fun i => (FVal.num (t.getD i 0)).div (FVal.num (p.getD i 0)))

/-- src/app.py line 75: traffic change rate, pandas pct_change times 100,
i.e. (traffic divided by traffic shift(1), minus 1) times 100, with the
shifted value at position 0 being NaN. -/
def trafficChangeRate (t : List ℚ) : List FVal :=
  (List.range t.length).map (fun i =>
    (((FVal.num (t.getD i 0)).div
        (if i = 0 then FVal.nan else FVal.num (t.getD (i - 1) 0))).sub
      (FVal.num 1)).mul (FVal.num 100))

/-- src/app.py lines 15 to 17: pandas rolling(window = w).mean() with the
default min_periods equal to the window size.  The output at position i is
NaN while fewer than w observations exist; otherwise it is the mean of the
w-cell window ending at i, which is NaN as soon as the window holds a NaN
(the non-missing count then falls below min_periods). -/
def rollingMean (w : ℕ) (xs : List FVal) : List FVal :=
  (List.range xs.length).map (fun i =>
    if i + 1 < w then FVal.nan
    else
      let window := (xs.take (i + 1)).drop (i + 1 - w)
      if window.any FVal.isna then FVal.nan
      else (window.foldl FVal.add (FVal.num 0)).div (FVal.num w))

/-- The two ranking states of src/app.py line 85. -/
inductive RState where
  | Positive : RState
  | Negative : RState
deriving DecidableEq, Repr

/-- src/app.py line 85 (and again line 194): ranking state,
np.where(smoothed traffic-per-page diff() fillna(0) > 0, Positive, Negative).
The diff at position 0, and at any position where a neighbor is NaN, is NaN
and is filled with 0 before the strict comparison. -/
def rankingState (sm : List FVal) : List RState :=
  (List.range sm.length).map (fun i =>
    let d : FVal :=
      if i = 0 then FVal.nan else (sm.getD i FVal.nan).sub (sm.getD (i - 1) FVal.nan)
    if d.fillna0.gtZero then RState.Positive else RState.Negative)

/-- pandas Series.dropna: keep the non-NaN cells (infinities are kept). -/
def dropna (xs : List FVal) : List FVal :=
  xs.filter (fun v => !v.isna)

/-- np.average without weights: the arithmetic mean.  On an empty input
numpy emits a RuntimeWarning and returns NaN (it does not raise). -/
def npAverage (xs : List FVal) : FVal :=
  if xs.length = 0 then FVal.nan
  else (xs.foldl FVal.add (FVal.num 0)).div (FVal.num xs.length)

/-- The smoothed page-change cells of the rows whose ranking state is s
(the pandas row filter of src/app.py lines 88 and 89). -/
def stateGroupValues (s : RState) (states : List RState) (ma : List FVal) : List FVal :=
  (states.zip ma).filterMap (fun x => if x.1 = s then some x.2 else none)

/-- src/app.py line 88: np.average over the dropna of the smoothed
page-change cells of the Positive-state rows. -/
def positiveWeightedAvg (states : List RState) (ma : List FVal) : FVal :=
  npAverage (dropna (stateGroupValues RState.Positive states ma))

/-- src/app.py line 89: np.average over the dropna of the smoothed
page-change cells of the Negative-state rows. -/
def negativeWeightedAvg (states : List RState) (ma : List FVal) : FVal :=
  npAverage (dropna (stateGroupValues RState.Negative states ma))

/-- A pandas dataframe restricted to what the smoothing stage touches: an
ordered association of column names to float columns. -/
structure ADF where
  cols : List (String × List FVal)
deriving DecidableEq, Repr

/-- Column assignment on the underlying association list: overwrite the
column in place when the name exists, append it otherwise.  This is the
effect of a pandas column assignment statement on the frame object. -/
def setColAux : List (String × List FVal) → String → List FVal → List (String × List FVal)
  | [], n, v => [(n, v)]
  | c :: cs, n, v => if c.1 = n then (n, v) :: cs else c :: setColAux cs n v

/-- Column lookup on the underlying association list (empty if absent). -/
def getColAux : List (String × List FVal) → String → List FVal
  | [], _ => []
  | c :: cs, n => if c.1 = n then c.2 else getColAux cs n

/-- Column assignment on a frame. -/
def setCol (df : ADF) (n : String) (v : List FVal) : ADF :=
  ⟨setColAux df.cols n v⟩

/-- Column lookup on a frame. -/
def getCol (df : ADF) (n : String) : List FVal :=
  getColAux df.cols n

/-- The name of the smoothed page-change column for window size w. -/
def maPageName (w : ℕ) : String :=
  "Page Change " ++ toString w ++ "MA"

/-- The name of the smoothed traffic-change column for window size w. -/
def maTrafficName (w : ℕ) : String :=
  "Traffic Change " ++ toString w ++ "MA"

/-- The name of the smoothed traffic-per-page column for window size w. -/
def maTppName (w : ℕ) : String :=
  "Traffic per Page " ++ toString w ++ "MA"

/-- src/app.py lines 13 to 18: the smoothing stage.  Each of the three
column assignments mutates the frame bound to the df argument in place
(pandas column assignment), and the same frame object is returned, so the
state of the frame seen by the caller after the call is the value this
embedding returns. -/
def calculate_moving_averages (df : ADF) (w : ℕ) : ADF :=
  let d1 := setCol df (maPageName w) (rollingMean w (getCol df ("Page Change Rate")))
  let d2 := setCol d1 (maTrafficName w) (rollingMean w (getCol d1 ("Traffic Change Rate")))
  setCol d2 (maTppName w) (rollingMean w (getCol d2 ("Traffic per Page")))

/-- Least element of a list of integers (0 for the empty list, which the
callers never pass). -/
def minIntD : List ℤ → ℤ
  | [] => 0
  | h :: t => t.foldl min h

/-- Greatest element of a list of integers (0 for the empty list, which
the callers never pass). -/
def maxIntD : List ℤ → ℤ
  | [] => 0
  | h :: t => t.foldl max h

/-- The W-Mon bin label of a day: days are integers counted from a Monday,
and each day belongs to the weekly bin labeled by the next Monday on or
after it (pandas W-Mon bins are right-closed and right-labeled). -/
def weekLabel (d : ℤ) : ℤ :=
  d + (-d) % 7

/-- The regular weekly grid of bin labels from lo to hi, step 7, that
pandas resample materializes. -/
def weekGrid (lo hi : ℤ) : List ℤ :=
  (List.range ((hi - lo).toNat / 7 + 1)).map (fun (k : ℕ) => lo + 7 * (k : ℤ))

/-- Sum of the page field over the raw rows falling in the bin labeled l
(pandas sum of a group; an empty group sums to 0). -/
def binPageSum (rows : List (ℤ × ℚ × ℚ)) (l : ℤ) : ℚ :=
  ((rows.filter (fun r => weekLabel r.1 = l)).map (fun r => r.2.1)).sum

/-- Sum of the traffic field over the raw rows falling in the bin labeled
l (pandas sum of a group; an empty group sums to 0). -/
def binTrafficSum (rows : List (ℤ × ℚ × ℚ)) (l : ℤ) : ℚ :=
  ((rows.filter (fun r => weekLabel r.1 = l)).map (fun r => r.2.2)).sum

/-- src/app.py line 61: df.resample(W-Mon, on = date).sum() followed by
reset_index and an ascending sort.  A row is (day, pages, traffic).
pandas materializes every weekly bin between the first and the last bin
label of the data and sums each bin, so bins holding no raw row appear as
rows whose numeric sums are 0. -/
def resampleWeekly (rows : List (ℤ × ℚ × ℚ)) : List (ℤ × ℚ × ℚ) :=
  if rows.isEmpty then []
  else
    let lo := weekLabel (minIntD (rows.map (fun r => r.1)))
    let hi := weekLabel (maxIntD (rows.map (fun r => r.1)))
    (weekGrid lo hi).map (fun l => (l, binPageSum rows l, binTrafficSum rows l))

/-- One emitted interval of the ranking state report of src/app.py lines
210 to 215 and 228 to 233, with the numbers that the f-string interpolates. -/
structure Entry where
  state : RState
  startD : ℤ
  endD : ℤ
  tppStart : FVal
  tppEnd : FVal
  pageChange : FVal
  trafficChange : FVal
deriving DecidableEq, Repr

/-- src/app.py line 195: the positions kept by the row filter
state different from state shift(1).  Position 0 is always kept, because
its shifted comparand is NaN and compares unequal to any label. -/
def changeIndices (st : List RState) : List ℕ :=
  (List.range st.length).filter
    (fun i => decide (i = 0) || decide (st.getD i RState.Negative ≠ st.getD (i - 1) RState.Negative))

/-- src/app.py lines 192 to 235: generate_ranking_report.  The frame
columns are passed positionally: dates (as integer days), raw pages, the
raw traffic change rate column, and the smoothed traffic-per-page column
sm.  The ranking state is recomputed from sm (line 194).  When the series
has at least one state change row but fewer than two rows overall, line
218 evaluates df.iloc[-2], which raises IndexError; the embedding returns
an error value for that case.  Interior segments are emitted only when
the smoothed traffic-per-page at both boundary rows is non-NaN, and
likewise the final segment; the page change of a segment divides by the
raw page count of its start row with no zero check. -/
def generateRankingReport (dates : List ℤ) (pages : List ℚ) (tcr sm : List FVal) :
    Except Unit (List Entry) :=
  let st := rankingState sm
  let chg := changeIndices st
  if chg.isEmpty then .ok []
  else
    let interior := (List.range (chg.length - 1)).filterMap (fun k =>
      let a := chg.getD k 0
      let b := chg.getD (k + 1) 0
      if !(sm.getD a FVal.nan).isna && !(sm.getD b FVal.nan).isna then
        some { state := st.getD a RState.Negative
               startD := dates.getD a 0
               endD := dates.getD b 0 - 1
               tppStart := sm.getD a FVal.nan
               tppEnd := sm.getD b FVal.nan
               pageChange :=
                 (((FVal.num (pages.getD b 0)).sub (FVal.num (pages.getD a 0))).div
                   (FVal.num (pages.getD a 0))).mul (FVal.num 100)
               trafficChange := tcr.getD b FVal.nan }
      else none)
    if sm.length < 2 then .error ()
    else
      let lastIdx := chg.getD (chg.length - 1) 0
      let finalState :=
        if (sm.getD (sm.length - 1) FVal.nan).fgt (sm.getD (sm.length - 2) FVal.nan)
        then RState.Positive else RState.Negative
      let fStart := sm.getD lastIdx FVal.nan
      let fEnd := sm.getD (sm.length - 1) FVal.nan
      let finalPart :=
        if !fStart.isna && !fEnd.isna then
          [{ state := finalState
             startD := dates.getD lastIdx 0
             endD := maxIntD dates
             tppStart := fStart
             tppEnd := fEnd
             pageChange :=
               (((FVal.num (pages.getD (pages.length - 1) 0)).sub
                   (FVal.num (pages.getD lastIdx 0))).div
                 (FVal.num (pages.getD lastIdx 0))).mul (FVal.num 100)
             trafficChange := tcr.getD (tcr.length - 1) FVal.nan }]
        else []
      .ok (interior ++ finalPart)

example : pagesAdded [10, 12, 12] = [0, 2, 0] := by
  norm_num [pagesAdded, List.range_succ]
example : pageChangeRate [10, 12, 12] =
    [FVal.nan, FVal.num (50 / 3), FVal.num 0] := by
  norm_num [pageChangeRate, pagesAdded, List.range_succ, FVal.add, FVal.div, FVal.mul]
example : trafficPerPage [100, 150, 120] [10, 12, 12] =
    [FVal.num 10, FVal.num (25 / 2), FVal.num 10] := by
  norm_num [trafficPerPage, List.range_succ, FVal.div]
example : trafficPerPage [5] [0] = [FVal.inf] := by
  norm_num [trafficPerPage, List.range_succ, FVal.div]
example : trafficChangeRate [100, 150] = [FVal.nan, FVal.num 50] := by
  norm_num [trafficChangeRate, List.range_succ, FVal.div, FVal.sub, FVal.mul]
example : rollingMean 2 [FVal.num 1, FVal.nan, FVal.num 2] =
    [FVal.nan, FVal.nan, FVal.nan] := by
  norm_num [rollingMean, List.range_succ, FVal.isna]
example : rollingMean 1 [FVal.nan, FVal.num 2] = [FVal.nan, FVal.num 2] := by
  norm_num [rollingMean, List.range_succ, FVal.isna, FVal.add, FVal.div]
example : rankingState [FVal.num 10, FVal.num 12, FVal.num 11] =
    [RState.Negative, RState.Positive, RState.Negative] := by
  norm_num [rankingState, List.range_succ, FVal.sub, FVal.fillna0, FVal.gtZero]

/-! Helper lemmas about positional access to the embedded series. -/

theorem getD_mapRange {α : Type} (f : ℕ → α) (n i : ℕ) (d : α) (h : i < n) :
    ((List.range n).map f).getD i d = f i := by
  rw [List.getD_eq_getElem?_getD]
  simp [List.getElem?_map, List.getElem?_range, h]

theorem countP_pos_add_neg (l : List RState) :
    l.countP (fun s => s == RState.Positive) + l.countP (fun s => s == RState.Negative) =
      l.length := by
  induction l with
  | nil => rfl
  | cons h t ih => cases h <;> simp [List.countP_cons, ← ih] <;> omega

theorem length_rankingState (sm : List FVal) : (rankingState sm).length = sm.length := by
  simp [rankingState]

theorem rankingState_getD (sm : List FVal) (i : ℕ) (h : i < sm.length) :
    (rankingState sm).getD i RState.Negative =
      if (FVal.fillna0 (if i = 0 then FVal.nan
            else (sm.getD i FVal.nan).sub (sm.getD (i - 1) FVal.nan))).gtZero
      then RState.Positive else RState.Negative := by
  unfold rankingState
  rw [getD_mapRange _ _ _ _ h]

theorem sub_nan_left (b : FVal) : FVal.sub FVal.nan b = FVal.nan := by
  cases b <;> rfl

theorem sub_nan_right (a : FVal) : FVal.sub a FVal.nan = FVal.nan := by
  cases a <;> rfl

/-- C1.  State Classifier totality and rule: the classified series assigns
every period exactly one of the two labels (the Positive count plus the
Negative count is the period count); for every period i with 1 ≤ i the
label is Positive exactly when the delta of the smoothed traffic-per-page
series, with a NaN delta treated as 0, is strictly greater than 0; period
0 is labeled Negative, and so is any period either of whose neighboring
smoothed values is NaN. -/
theorem c1_theorem (sm : List FVal) :
    ((rankingState sm).countP (fun s => s == RState.Positive) +
        (rankingState sm).countP (fun s => s == RState.Negative) = sm.length)
    ∧ (∀ i, 1 ≤ i → i < sm.length →
        ((rankingState sm).getD i RState.Negative = RState.Positive ↔
          (FVal.fillna0 ((sm.getD i FVal.nan).sub (sm.getD (i - 1) FVal.nan))).gtZero = true))
    ∧ (0 < sm.length → (rankingState sm).getD 0 RState.Negative = RState.Negative)
    ∧ (∀ i, i < sm.length →
        (sm.getD i FVal.nan = FVal.nan ∨ (1 ≤ i ∧ sm.getD (i - 1) FVal.nan = FVal.nan)) →
        (rankingState sm).getD i RState.Negative = RState.Negative) := by
  refine ⟨?_, ?_, ?_, ?_⟩
  · rw [countP_pos_add_neg, length_rankingState]
  · intro i h1 h2
    rw [rankingState_getD sm i h2, if_neg (show ¬ (i = 0) by omega)]
    by_cases hg :
        (FVal.fillna0 ((sm.getD i FVal.nan).sub (sm.getD (i - 1) FVal.nan))).gtZero = true
    · simp [hg]
    · simp [hg]
  · intro h0
    rw [rankingState_getD sm 0 h0]
    simp [FVal.fillna0, FVal.gtZero]
  · intro i hi hnan
    rw [rankingState_getD sm i hi]
    rcases hnan with h | ⟨h1, h⟩
    · rcases Nat.eq_zero_or_pos i with h0 | h0
      · simp [h0, FVal.fillna0, FVal.gtZero]
      · rw [if_neg (show ¬ (i = 0) by omega), h, sub_nan_left]
        simp [FVal.fillna0, FVal.gtZero]
    · rw [if_neg (show ¬ (i = 0) by omega), h, sub_nan_right]
      simp [FVal.fillna0, FVal.gtZero]

/-- Closed instance of c1_theorem on a concrete smoothed series, with every
hypothesis discharged. -/
theorem c1_witness :
    ((rankingState [FVal.num 1, FVal.num 3, FVal.nan]).getD 1 RState.Negative = RState.Positive ↔
      (FVal.fillna0 (([FVal.num 1, FVal.num 3, FVal.nan].getD 1 FVal.nan).sub
        ([FVal.num 1, FVal.num 3, FVal.nan].getD 0 FVal.nan))).gtZero = true)
    ∧ (rankingState [FVal.num 1, FVal.num 3, FVal.nan]).getD 0 RState.Negative = RState.Negative
    ∧ (rankingState [FVal.num 1, FVal.num 3, FVal.nan]).getD 2 RState.Negative = RState.Negative := by
  refine ⟨(c1_theorem [FVal.num 1, FVal.num 3, FVal.nan]).2.1 1 (by omega) (by simp),
    (c1_theorem [FVal.num 1, FVal.num 3, FVal.nan]).2.2.1 (by simp),
    (c1_theorem [FVal.num 1, FVal.num 3, FVal.nan]).2.2.2 2 (by simp) (Or.inl (by simp))⟩

theorem length_rollingMean (w : ℕ) (xs : List FVal) :
    (rollingMean w xs).length = xs.length := by
  simp [rollingMean]

theorem rollingMean_getD (w : ℕ) (xs : List FVal) (i : ℕ) (h : i < xs.length) :
    (rollingMean w xs).getD i FVal.nan =
      if i + 1 < w then FVal.nan
      else if ((xs.take (i + 1)).drop (i + 1 - w)).any FVal.isna then FVal.nan
      else (((xs.take (i + 1)).drop (i + 1 - w)).foldl FVal.add (FVal.num 0)).div
        (FVal.num w) := by
  unfold rollingMean
  rw [getD_mapRange _ _ _ _ h]

theorem window_eq (xs : List FVal) (i w : ℕ) (hw : w ≤ i + 1) (hi : i < xs.length) :
    (xs.take (i + 1)).drop (i + 1 - w) =
      (List.range' (i + 1 - w) w).map (fun j => xs.getD j FVal.nan) := by
  apply List.ext_getElem
  · simp [List.length_range']
    omega
  · intro k h1 h2
    have hk : k < w := by
      simpa [List.length_range'] using h2
    have hidx : i + 1 - w + k < xs.length := by omega
    simp only [List.getElem_drop, List.getElem_map, List.getElem_range']
    rw [List.getElem_take, List.getD_eq_getElem xs FVal.nan (by omega : i + 1 - w + 1 * k < xs.length)]
    congr 1
    omega

/-- C9.  Smoothing with window size 1 is the identity on every rate
series, and in particular the output is null exactly where the input is. -/
theorem c9_theorem (xs : List FVal) :
    rollingMean 1 xs = xs ∧
      ∀ i d, ((rollingMean 1 xs).getD i d).isna = (xs.getD i d).isna := by
  have h : rollingMean 1 xs = xs := by
    apply List.ext_getElem (by simp [rollingMean])
    intro i h1 h2
    unfold rollingMean
    rw [List.getElem_map, List.getElem_range]
    rw [if_neg (show ¬ (i + 1 < 1) by omega)]
    have hwin := window_eq xs i 1 (by omega) h2
    simp only [hwin, List.range'_one, List.map_singleton]
    rw [List.getD_eq_getElem xs FVal.nan (by omega : i + 1 - 1 < xs.length)]
    simp only [Nat.add_sub_cancel]
    rcases hv : xs[i] with _ | _ | _ | q <;>
      simp [hv, FVal.isna, FVal.add, FVal.div, zero_add, div_one]
  exact ⟨h, fun i d => by rw [h]⟩

theorem foldl_add_allnum (l : List FVal) (q0 : ℚ)
    (h : ∀ v ∈ l, ∃ q, v = FVal.num q) :
    l.foldl FVal.add (FVal.num q0) = FVal.num (q0 + (l.map FVal.qOf).sum) := by
  induction l generalizing q0 with
  | nil => simp
  | cons v t ih =>
    obtain ⟨q, hq⟩ := h v (by simp)
    subst hq
    rw [List.foldl_cons, show (FVal.num q0).add (FVal.num q) = FVal.num (q0 + q) from rfl,
      ih (q0 + q) (fun v hv => h v (by simp [hv]))]
    simp [FVal.qOf]
    ring

/-- C2 (amended).  For every rate series and window size W at least 1, the
trailing moving average has its first W-1 outputs null; at every later
position, a window that contains a null value makes the output null
(pandas uses min_periods equal to the window, so nulls poison the window
rather than being skipped), and a window consisting of W present values
yields their plain mean. -/
theorem c2_theorem (xs : List FVal) (w i : ℕ) (hw : 1 ≤ w) (hi : i < xs.length) :
    (i + 1 < w → (rollingMean w xs).getD i FVal.nan = FVal.nan)
    ∧ (w ≤ i + 1 →
        (∃ j, i + 1 - w ≤ j ∧ j ≤ i ∧ xs.getD j FVal.nan = FVal.nan) →
        (rollingMean w xs).getD i FVal.nan = FVal.nan)
    ∧ (w ≤ i + 1 →
        (∀ j, i + 1 - w ≤ j → j ≤ i → ∃ q, xs.getD j FVal.nan = FVal.num q) →
        (rollingMean w xs).getD i FVal.nan =
          FVal.num ((((List.range' (i + 1 - w) w).map
            (fun j => (xs.getD j FVal.nan).qOf)).sum) / (w : ℚ))) := by
  refine ⟨?_, ?_, ?_⟩
  · intro hlt
    rw [rollingMean_getD w xs i hi, if_pos hlt]
  · intro hge ⟨j, hj1, hj2, hj3⟩
    rw [rollingMean_getD w xs i hi, if_neg (show ¬ (i + 1 < w) by omega),
      window_eq xs i w hge hi]
    have hany : ((List.range' (i + 1 - w) w).map (fun j => xs.getD j FVal.nan)).any
        FVal.isna = true := by
      refine List.any_eq_true.2 ⟨xs.getD j FVal.nan, ?_, by rw [hj3]; rfl⟩
      exact List.mem_map.2 ⟨j, List.mem_range'_1.2 ⟨hj1, by omega⟩, rfl⟩
    rw [if_pos hany]
  · intro hge hnum
    rw [rollingMean_getD w xs i hi, if_neg (show ¬ (i + 1 < w) by omega),
      window_eq xs i w hge hi]
    have hall : ∀ v ∈ (List.range' (i + 1 - w) w).map (fun j => xs.getD j FVal.nan),
        ∃ q, v = FVal.num q := by
      intro v hv
      obtain ⟨j, hj, rfl⟩ := List.mem_map.1 hv
      obtain ⟨hj1, hj2⟩ := List.mem_range'_1.1 hj
      exact hnum j hj1 (by omega)
    have hany : ((List.range' (i + 1 - w) w).map (fun j => xs.getD j FVal.nan)).any
        FVal.isna = false := by
      refine List.any_eq_false.2 ?_
      intro v hv
      obtain ⟨q, rfl⟩ := hall v hv
      simp [FVal.isna]
    rw [if_neg (by rw [hany]; simp), foldl_add_allnum _ 0 hall]
    have hwq : ((w : ℚ)) ≠ 0 := Nat.cast_ne_zero.2 (by omega)
    rw [show FVal.div (FVal.num (0 + (((List.range' (i + 1 - w) w).map
        (fun j => xs.getD j FVal.nan)).map FVal.qOf).sum)) (FVal.num (w : ℚ)) =
        FVal.num ((0 + (((List.range' (i + 1 - w) w).map
          (fun j => xs.getD j FVal.nan)).map FVal.qOf).sum) / (w : ℚ)) from by
      simp [FVal.div, hwq]]
    rw [List.map_map]
    norm_num
    rfl

/-- C2 counterexample: with window 2 over the series 1, null, 2 the output
at position 2 is null, whereas NaN-skipping semantics would give the mean
of the non-null window values, 2. -/
theorem c2_counterexample :
    (rollingMean 2 [FVal.num 1, FVal.nan, FVal.num 2]).getD 2 FVal.nan = FVal.nan
      ∧ FVal.nan ≠ FVal.num 2 := by
  exact ⟨by with_unfolding_all rfl, by decide⟩

/-- Closed instance of c2_theorem with every hypothesis discharged. -/
theorem c2_witness :
    (rollingMean 2 [FVal.num 1, FVal.nan, FVal.num 2]).getD 2 FVal.nan = FVal.nan
    ∧ (rollingMean 2 [FVal.num 1, FVal.num 3, FVal.num 5]).getD 0 FVal.nan = FVal.nan
    ∧ (rollingMean 2 [FVal.num 1, FVal.num 3, FVal.num 5]).getD 1 FVal.nan =
        FVal.num ((((List.range' 0 2).map
          (fun j => (([FVal.num 1, FVal.num 3, FVal.num 5].getD j FVal.nan)).qOf)).sum) /
            ((2 : ℕ) : ℚ)) := by
  refine ⟨(c2_theorem [FVal.num 1, FVal.nan, FVal.num 2] 2 2 (by omega) (by simp)).2.1
      (by omega) ⟨1, by omega, by omega, rfl⟩,
    (c2_theorem [FVal.num 1, FVal.num 3, FVal.num 5] 2 0 (by omega) (by simp)).1 (by omega),
    ?_⟩
  have h := (c2_theorem [FVal.num 1, FVal.num 3, FVal.num 5] 2 1 (by omega) (by simp)).2.2
    (by omega) (fun j h1 h2 => by interval_cases j <;> exact ⟨_, rfl⟩)
  simpa using h


/-! Scalar evaluation lemmas for the cell operations. -/

theorem div_zero_pos (a : ℚ) (h : 0 < a) :
    (FVal.num a).div (FVal.num 0) = FVal.inf := by
  simp [FVal.div, h]

theorem div_zero_zero : (FVal.num 0).div (FVal.num 0) = FVal.nan := by
  simp [FVal.div]

theorem div_num_ne (a b : ℚ) (h : b ≠ 0) :
    (FVal.num a).div (FVal.num b) = FVal.num (a / b) := by
  simp [FVal.div, h]

theorem num_sub_num (a b : ℚ) : (FVal.num a).sub (FVal.num b) = FVal.num (a - b) := rfl

theorem num_mul_num (a b : ℚ) : (FVal.num a).mul (FVal.num b) = FVal.num (a * b) := rfl

theorem num_add_num (a b : ℚ) : (FVal.num a).add (FVal.num b) = FVal.num (a + b) := rfl

theorem inf_sub_num (b : ℚ) : FVal.inf.sub (FVal.num b) = FVal.inf := rfl

theorem inf_mul_pos (b : ℚ) (h : 0 < b) : FVal.inf.mul (FVal.num b) = FVal.inf := by
  simp [FVal.mul, h]

theorem nan_mul (b : FVal) : FVal.nan.mul b = FVal.nan := by
  cases b <;> rfl

theorem nan_add (b : FVal) : FVal.nan.add b = FVal.nan := by
  cases b <;> rfl

theorem div_nan (a : FVal) : a.div FVal.nan = FVal.nan := by
  cases a <;> rfl

theorem num_div_nan_mul :
    ∀ a c : FVal, (((FVal.num 0).div FVal.nan).sub a).mul c = FVal.nan := by
  intro a c
  rw [div_nan]
  cases a <;> cases c <;> rfl

theorem trafficPerPage_getD (t p : List ℚ) (i : ℕ) (h : i < t.length) :
    (trafficPerPage t p).getD i FVal.nan =
      (FVal.num (t.getD i 0)).div (FVal.num (p.getD i 0)) := by
  unfold trafficPerPage
  rw [getD_mapRange _ _ _ _ h]

theorem trafficChangeRate_getD (t : List ℚ) (i : ℕ) (h : i < t.length) :
    (trafficChangeRate t).getD i FVal.nan =
      (((FVal.num (t.getD i 0)).div
          (if i = 0 then FVal.nan else FVal.num (t.getD (i - 1) 0))).sub
        (FVal.num 1)).mul (FVal.num 100) := by
  unfold trafficChangeRate
  rw [getD_mapRange _ _ _ _ h]

/-- C3 (amended).  Division by zero never raises, but it does not always
degrade to null either: traffic-per-page at a period with zero pages is
NaN only when the traffic is also zero, and is positive infinity (a
non-null numeric) when the traffic is positive; with a nonzero page count
it is the finite quotient.  The traffic change rate is NaN at period 0;
at a later period whose predecessor traffic is zero it is NaN when the
current traffic is also zero and positive infinity when the current
traffic is positive, and with nonzero predecessor traffic it is the
finite percentage. -/
theorem c3_theorem (t p : List ℚ) (i : ℕ) (hi : i < t.length) :
    (p.getD i 0 = 0 → t.getD i 0 = 0 → (trafficPerPage t p).getD i FVal.nan = FVal.nan)
    ∧ (p.getD i 0 = 0 → 0 < t.getD i 0 → (trafficPerPage t p).getD i FVal.nan = FVal.inf)
    ∧ (p.getD i 0 ≠ 0 → (trafficPerPage t p).getD i FVal.nan =
        FVal.num (t.getD i 0 / p.getD i 0))
    ∧ (i = 0 → (trafficChangeRate t).getD i FVal.nan = FVal.nan)
    ∧ (1 ≤ i → t.getD (i - 1) 0 = 0 → t.getD i 0 = 0 →
        (trafficChangeRate t).getD i FVal.nan = FVal.nan)
    ∧ (1 ≤ i → t.getD (i - 1) 0 = 0 → 0 < t.getD i 0 →
        (trafficChangeRate t).getD i FVal.nan = FVal.inf)
    ∧ (1 ≤ i → t.getD (i - 1) 0 ≠ 0 →
        (trafficChangeRate t).getD i FVal.nan =
          FVal.num ((t.getD i 0 - t.getD (i - 1) 0) / t.getD (i - 1) 0 * 100)) := by
  refine ⟨?_, ?_, ?_, ?_, ?_, ?_, ?_⟩
  · intro hp ht
    rw [trafficPerPage_getD t p i hi, hp, ht, div_zero_zero]
  · intro hp ht
    rw [trafficPerPage_getD t p i hi, hp, div_zero_pos _ ht]
  · intro hp
    rw [trafficPerPage_getD t p i hi, div_num_ne _ _ hp]
  · intro h0
    rw [trafficChangeRate_getD t i hi, if_pos h0, div_nan, sub_nan_left, nan_mul]
  · intro h1 hprev hcur
    rw [trafficChangeRate_getD t i hi, if_neg (show ¬ (i = 0) by omega), hprev, hcur,
      div_zero_zero, sub_nan_left, nan_mul]
  · intro h1 hprev hcur
    rw [trafficChangeRate_getD t i hi, if_neg (show ¬ (i = 0) by omega), hprev,
      div_zero_pos _ hcur, inf_sub_num, inf_mul_pos 100 (by norm_num)]
  · intro h1 hprev
    rw [trafficChangeRate_getD t i hi, if_neg (show ¬ (i = 0) by omega),
      div_num_ne _ _ hprev, num_sub_num, num_mul_num]
    congr 1
    have hb : (t[i - 1]?.getD 0 : ℚ) ≠ 0 := by
      rw [← List.getD_eq_getElem?_getD]
      exact hprev
    field_simp [hb]

/-- C3 counterexample: a period with zero pages and positive traffic has
traffic-per-page equal to positive infinity, a non-null numeric value,
not null. -/
theorem c3_counterexample :
    trafficPerPage [5] [0] = [FVal.inf] ∧ FVal.inf ≠ FVal.nan := by
  exact ⟨by with_unfolding_all rfl, by decide⟩

/-- Closed instances of c3_theorem with every hypothesis discharged. -/
theorem c3_witness :
    (trafficPerPage [0] [0]).getD 0 FVal.nan = FVal.nan
    ∧ (trafficPerPage [5] [0]).getD 0 FVal.nan = FVal.inf
    ∧ (trafficPerPage [6] [3]).getD 0 FVal.nan = FVal.num ((6 : ℚ) / 3)
    ∧ (trafficChangeRate [7]).getD 0 FVal.nan = FVal.nan
    ∧ (trafficChangeRate [0, 0]).getD 1 FVal.nan = FVal.nan
    ∧ (trafficChangeRate [0, 5]).getD 1 FVal.nan = FVal.inf
    ∧ (trafficChangeRate [10, 20]).getD 1 FVal.nan =
        FVal.num ((((20 : ℚ) - 10) / 10) * 100) := by
  refine ⟨(c3_theorem [0] [0] 0 (by simp)).1 rfl rfl,
    (c3_theorem [5] [0] 0 (by simp)).2.1 rfl (by norm_num),
    (c3_theorem [6] [3] 0 (by simp)).2.2.1 (by norm_num),
    (c3_theorem [7] [1] 0 (by simp)).2.2.2.1 rfl,
    (c3_theorem [0, 0] [1, 1] 1 (by simp)).2.2.2.2.1 (by omega) rfl rfl,
    (c3_theorem [0, 5] [1, 1] 1 (by simp)).2.2.2.2.2.1 (by omega) rfl (by norm_num),
    ?_⟩
  have h := (c3_theorem [10, 20] [1, 1] 1 (by simp)).2.2.2.2.2.2 (by omega) (by norm_num)
  simpa using h

theorem pagesAdded_getD (p : List ℚ) (i : ℕ) (h : i < p.length) :
    (pagesAdded p).getD i 0 = if i = 0 then 0 else p.getD i 0 - p.getD (i - 1) 0 := by
  unfold pagesAdded
  rw [getD_mapRange _ _ _ _ h]

theorem pageChangeRate_getD (p : List ℚ) (i : ℕ) (h : i < p.length) :
    (pageChangeRate p).getD i FVal.nan =
      ((FVal.num ((pagesAdded p).getD i 0)).div
        (if (FVal.add (if i = 0 then FVal.nan else FVal.num (p.getD (i - 1) 0))
              (FVal.num ((pagesAdded p).getD i 0))) = FVal.num 0
         then FVal.nan
         else FVal.add (if i = 0 then FVal.nan else FVal.num (p.getD (i - 1) 0))
              (FVal.num ((pagesAdded p).getD i 0)))).mul (FVal.num 100) := by
  unfold pageChangeRate
  rw [getD_mapRange _ _ _ _ h]

/-- C6 (amended).  The page change rate is null exactly when the current
page count is zero or the period is period 0 (the first period is always
null, because the shifted denominator there is NaN, even though pages
added is filled to 0); at every later period with a nonzero current page
count it equals pages added divided by the current page count, times 100. -/
theorem c6_theorem (p : List ℚ) (i : ℕ) (hi : i < p.length) :
    ((pageChangeRate p).getD i FVal.nan = FVal.nan ↔ (i = 0 ∨ p.getD i 0 = 0))
    ∧ (1 ≤ i → p.getD i 0 ≠ 0 →
        (pageChangeRate p).getD i FVal.nan =
          FVal.num ((p.getD i 0 - p.getD (i - 1) 0) / p.getD i 0 * 100)) := by
  rw [pageChangeRate_getD p i hi, pagesAdded_getD p i hi]
  by_cases h0 : i = 0
  · subst h0
    rw [if_pos rfl, if_pos rfl, nan_add,
      if_neg (show ¬ (FVal.nan = FVal.num 0) by decide), div_nan, nan_mul]
    constructor
    · simp
    · intro h
      exact absurd h (by omega)
  · rw [if_neg h0, if_neg h0, num_add_num]
    have hself : p.getD (i - 1) 0 + (p.getD i 0 - p.getD (i - 1) 0) = p.getD i 0 := by
      ring
    rw [hself]
    by_cases hz : p.getD i 0 = 0
    · rw [hz, if_pos rfl, div_nan, nan_mul]
      constructor
      · simp [h0, hz]
      · intro h1 hz2
        exact absurd rfl hz2
    · rw [if_neg (show ¬ (FVal.num (p.getD i 0) = FVal.num 0) from
        fun h => hz (FVal.num.inj h)), div_num_ne _ _ hz, num_mul_num]
      refine ⟨⟨fun h => FVal.noConfusion h, fun h => ?_⟩, fun h1 hz2 => rfl⟩
      rcases h with h | h
      · exact absurd h h0
      · exact absurd h hz

/-- C6 counterexample: a one-period series with a nonzero page count has a
null page change rate at period 0, whereas the claim (pages added 0 over
page count 10, times 100) predicts the numeric value 0. -/
theorem c6_counterexample :
    pageChangeRate [10] = [FVal.nan] ∧ FVal.nan ≠ FVal.num 0 := by
  exact ⟨by with_unfolding_all rfl, by decide⟩

/-- Closed instances of c6_theorem with every hypothesis discharged. -/
theorem c6_witness :
    ((pageChangeRate [10]).getD 0 FVal.nan = FVal.nan ↔
      (0 = 0 ∨ [(10 : ℚ)].getD 0 0 = 0))
    ∧ (pageChangeRate [10, 20]).getD 1 FVal.nan =
        FVal.num ((((20 : ℚ) - 10) / 20) * 100) := by
  refine ⟨(c6_theorem [10] 0 (by simp)).1, ?_⟩
  have h := (c6_theorem [10, 20] 1 (by simp)).2 (by omega) (by norm_num)
  simpa using h

/-- C5 (amended).  When the set of periods of one ranking state with
non-null smoothed page-change values is empty, np.average yields the NaN
float for that group (it warns, it does not raise), the summary string
interpolates nan rather than a separate no-data message, and the other
group and the rest of the pipeline still complete: a nonempty all-finite
other group gets a finite mean. -/
theorem c5_theorem (states : List RState) (ma : List FVal)
    (hpos : dropna (stateGroupValues RState.Positive states ma) = []) :
    positiveWeightedAvg states ma = FVal.nan
    ∧ (dropna (stateGroupValues RState.Negative states ma) ≠ [] →
        (∀ v ∈ dropna (stateGroupValues RState.Negative states ma), ∃ q, v = FVal.num q) →
        ∃ q : ℚ, negativeWeightedAvg states ma = FVal.num q) := by
  constructor
  · unfold positiveWeightedAvg
    rw [hpos]
    rfl
  · intro hne hall
    unfold negativeWeightedAvg npAverage
    rw [if_neg (show ¬ ((dropna (stateGroupValues RState.Negative states ma)).length = 0)
      from fun h => hne (List.length_eq_zero.1 h))]
    rw [foldl_add_allnum _ 0 hall]
    have hlen : (((dropna (stateGroupValues RState.Negative states ma)).length : ℚ)) ≠ 0 :=
      Nat.cast_ne_zero.2 (fun h => hne (List.length_eq_zero.1 h))
    rw [div_num_ne _ _ hlen]
    exact ⟨_, rfl⟩

/-- C5 counterexample: with a single Negative period, the Positive group
is empty and the aggregator evaluates to the NaN float, which the summary
renders as nan — there is no separate descriptive no-data outcome; the
Negative mean is still computed. -/
theorem c5_counterexample :
    positiveWeightedAvg [RState.Negative] [FVal.num 5] = FVal.nan
    ∧ negativeWeightedAvg [RState.Negative] [FVal.num 5] = FVal.num 5 := by
  exact ⟨by with_unfolding_all rfl, by with_unfolding_all rfl⟩

/-- Closed instance of c5_theorem with every hypothesis discharged. -/
theorem c5_witness :
    positiveWeightedAvg [RState.Negative] [FVal.num 7] = FVal.nan
    ∧ ∃ q : ℚ, negativeWeightedAvg [RState.Negative] [FVal.num 7] = FVal.num q := by
  have h := c5_theorem [RState.Negative] [FVal.num 7] rfl
  refine ⟨h.1, h.2 (by decide) ?_⟩
  intro v hv
  rw [show dropna (stateGroupValues RState.Negative [RState.Negative] [FVal.num 7]) =
    [FVal.num 7] from rfl] at hv
  simp at hv
  exact ⟨7, hv⟩

theorem getColAux_setColAux_self (cs : List (String × List FVal)) (n : String)
    (v : List FVal) : getColAux (setColAux cs n v) n = v := by
  induction cs with
  | nil => simp [setColAux, getColAux]
  | cons c cs ih =>
    by_cases h : c.1 = n
    · simp [setColAux, h, getColAux]
    · simp [setColAux, h, getColAux, ih]

theorem getColAux_setColAux_ne (cs : List (String × List FVal)) (n m : String)
    (v : List FVal) (h : m ≠ n) :
    getColAux (setColAux cs n v) m = getColAux cs m := by
  induction cs with
  | nil => simp [setColAux, getColAux, Ne.symm h]
  | cons c cs ih =>
    by_cases hc : c.1 = n
    · subst hc
      simp [setColAux, getColAux, Ne.symm h]
    · simp [setColAux, hc, getColAux, ih]

theorem mem_setColAux_self (cs : List (String × List FVal)) (n : String) (v : List FVal) :
    ∃ x ∈ setColAux cs n v, x.1 = n := by
  induction cs with
  | nil => exact ⟨(n, v), by simp [setColAux]⟩
  | cons c cs ih =>
    by_cases h : c.1 = n
    · exact ⟨(n, v), by simp [setColAux, h]⟩
    · obtain ⟨x, hx, hxn⟩ := ih
      exact ⟨x, by simp [setColAux, h, hx], hxn⟩

theorem mem_setColAux_mono (cs : List (String × List FVal)) (n m : String) (v : List FVal)
    (h : ∃ x ∈ cs, x.1 = n) : ∃ x ∈ setColAux cs m v, x.1 = n := by
  induction cs with
  | nil => simp at h
  | cons c cs ih =>
    obtain ⟨x, hx, hxn⟩ := h
    by_cases hc : c.1 = m
    · rcases List.mem_cons.1 hx with hx1 | hx2
      · subst hx1
        exact ⟨(m, v), by simp [setColAux, hc], by rw [← hc, hxn]⟩
      · exact ⟨x, by simp [setColAux, hc, hx2], hxn⟩
    · rcases List.mem_cons.1 hx with hx1 | hx2
      · subst hx1
        exact ⟨x, by simp [setColAux, hc], hxn⟩
      · obtain ⟨y, hy, hyn⟩ := ih ⟨x, hx2, hxn⟩
        exact ⟨y, by simp [setColAux, hc, hy], hyn⟩

theorem setColAux_eq_self (cs : List (String × List FVal)) (n : String) (v : List FVal)
    (hmem : ∃ x ∈ cs, x.1 = n) (hv : getColAux cs n = v) :
    setColAux cs n v = cs := by
  induction cs with
  | nil => simp at hmem
  | cons c cs ih =>
    by_cases h : c.1 = n
    · obtain ⟨c1, c2⟩ := c
      simp only at h
      subst h
      simp [setColAux, getColAux] at hv ⊢
      exact hv.symm
    · have h2 : ∃ x ∈ cs, x.1 = n := by
        obtain ⟨x, hx, hxn⟩ := hmem
        rcases List.mem_cons.1 hx with hx1 | hx2
        · subst hx1
          exact absurd hxn h
        · exact ⟨x, hx2, hxn⟩
      have hv2 : getColAux cs n = v := by
        rw [← hv]
        simp [getColAux, h]
      simp [setColAux, h, ih h2 hv2]

theorem cma_cols (df : ADF) (w : ℕ)
    (hr21 : ("Traffic Change Rate" : String) ≠ maPageName w)
    (hr31 : ("Traffic per Page" : String) ≠ maPageName w)
    (hr32 : ("Traffic per Page" : String) ≠ maTrafficName w) :
    calculate_moving_averages df w =
      ⟨setColAux (setColAux (setColAux df.cols (maPageName w)
          (rollingMean w (getColAux df.cols ("Page Change Rate"))))
        (maTrafficName w) (rollingMean w (getColAux df.cols ("Traffic Change Rate"))))
        (maTppName w) (rollingMean w (getColAux df.cols ("Traffic per Page")))⟩ := by
  unfold calculate_moving_averages setCol getCol
  simp only [getColAux_setColAux_ne _ _ _ _ hr21, getColAux_setColAux_ne _ _ _ _ hr31,
    getColAux_setColAux_ne _ _ _ _ hr32]

/-- C8 (amended).  The smoothing stage is deterministic and idempotent —
calling it again on its own output with the same window size changes
nothing, and it touches no column other than the three MA columns — but it
is not mutation-free: the three column assignments write into the frame
object the caller passed, so the frame seen by the caller after the call
has gained the MA columns.  The hypotheses record that the three raw
column names and the three MA column names for window w are pairwise
distinct, which holds for every w. -/
theorem c8_theorem (df : ADF) (w : ℕ) (c : String)
    (hd1 : maPageName w ≠ maTrafficName w) (hd2 : maPageName w ≠ maTppName w)
    (hd3 : maTrafficName w ≠ maTppName w)
    (hr11 : ("Page Change Rate" : String) ≠ maPageName w)
    (hr12 : ("Page Change Rate" : String) ≠ maTrafficName w)
    (hr13 : ("Page Change Rate" : String) ≠ maTppName w)
    (hr21 : ("Traffic Change Rate" : String) ≠ maPageName w)
    (hr22 : ("Traffic Change Rate" : String) ≠ maTrafficName w)
    (hr23 : ("Traffic Change Rate" : String) ≠ maTppName w)
    (hr31 : ("Traffic per Page" : String) ≠ maPageName w)
    (hr32 : ("Traffic per Page" : String) ≠ maTrafficName w)
    (hr33 : ("Traffic per Page" : String) ≠ maTppName w)
    (hc1 : c ≠ maPageName w) (hc2 : c ≠ maTrafficName w) (hc3 : c ≠ maTppName w) :
    getCol (calculate_moving_averages df w) c = getCol df c
    ∧ calculate_moving_averages (calculate_moving_averages df w) w =
        calculate_moving_averages df w := by
  have hcols := cma_cols df w hr21 hr31 hr32
  constructor
  · rw [hcols]
    unfold getCol
    rw [getColAux_setColAux_ne _ _ _ _ hc3, getColAux_setColAux_ne _ _ _ _ hc2,
      getColAux_setColAux_ne _ _ _ _ hc1]
  · rw [hcols, cma_cols _ w hr21 hr31 hr32]
    congr 1
    rw [getColAux_setColAux_ne _ _ _ _ hr13, getColAux_setColAux_ne _ _ _ _ hr12,
      getColAux_setColAux_ne _ _ _ _ hr11,
      getColAux_setColAux_ne _ _ _ _ hr23, getColAux_setColAux_ne _ _ _ _ hr22,
      getColAux_setColAux_ne _ _ _ _ hr21,
      getColAux_setColAux_ne _ _ _ _ hr33, getColAux_setColAux_ne _ _ _ _ hr32,
      getColAux_setColAux_ne _ _ _ _ hr31]
    have hval1 : getColAux (setColAux (setColAux (setColAux df.cols (maPageName w)
        (rollingMean w (getColAux df.cols ("Page Change Rate"))))
        (maTrafficName w) (rollingMean w (getColAux df.cols ("Traffic Change Rate"))))
        (maTppName w) (rollingMean w (getColAux df.cols ("Traffic per Page"))))
        (maPageName w) = rollingMean w (getColAux df.cols ("Page Change Rate")) := by
      rw [getColAux_setColAux_ne _ _ _ _ hd2, getColAux_setColAux_ne _ _ _ _ hd1,
        getColAux_setColAux_self]
    have hval2 : getColAux (setColAux (setColAux (setColAux df.cols (maPageName w)
        (rollingMean w (getColAux df.cols ("Page Change Rate"))))
        (maTrafficName w) (rollingMean w (getColAux df.cols ("Traffic Change Rate"))))
        (maTppName w) (rollingMean w (getColAux df.cols ("Traffic per Page"))))
        (maTrafficName w) = rollingMean w (getColAux df.cols ("Traffic Change Rate")) := by
      rw [getColAux_setColAux_ne _ _ _ _ hd3, getColAux_setColAux_self]
    have hval3 : getColAux (setColAux (setColAux (setColAux df.cols (maPageName w)
        (rollingMean w (getColAux df.cols ("Page Change Rate"))))
        (maTrafficName w) (rollingMean w (getColAux df.cols ("Traffic Change Rate"))))
        (maTppName w) (rollingMean w (getColAux df.cols ("Traffic per Page"))))
        (maTppName w) = rollingMean w (getColAux df.cols ("Traffic per Page")) :=
      getColAux_setColAux_self _ _ _
    have hmem1 : ∃ x ∈ setColAux (setColAux (setColAux df.cols (maPageName w)
        (rollingMean w (getColAux df.cols ("Page Change Rate"))))
        (maTrafficName w) (rollingMean w (getColAux df.cols ("Traffic Change Rate"))))
        (maTppName w) (rollingMean w (getColAux df.cols ("Traffic per Page"))),
        x.1 = maPageName w :=
      mem_setColAux_mono _ _ _ _ (mem_setColAux_mono _ _ _ _ (mem_setColAux_self _ _ _))
    have hmem2 : ∃ x ∈ setColAux (setColAux (setColAux df.cols (maPageName w)
        (rollingMean w (getColAux df.cols ("Page Change Rate"))))
        (maTrafficName w) (rollingMean w (getColAux df.cols ("Traffic Change Rate"))))
        (maTppName w) (rollingMean w (getColAux df.cols ("Traffic per Page"))),
        x.1 = maTrafficName w :=
      mem_setColAux_mono _ _ _ _ (mem_setColAux_self _ _ _)
    have hmem3 : ∃ x ∈ setColAux (setColAux (setColAux df.cols (maPageName w)
        (rollingMean w (getColAux df.cols ("Page Change Rate"))))
        (maTrafficName w) (rollingMean w (getColAux df.cols ("Traffic Change Rate"))))
        (maTppName w) (rollingMean w (getColAux df.cols ("Traffic per Page"))),
        x.1 = maTppName w :=
      mem_setColAux_self _ _ _
    rw [setColAux_eq_self _ _ _ hmem1 hval1, setColAux_eq_self _ _ _ hmem2 hval2,
      setColAux_eq_self _ _ _ hmem3 hval3]

/-- C8 counterexample: the frame object passed to the smoothing stage is
mutated — after the call the frame holds the three MA columns, so it is no
longer equal to the frame that was passed in. -/
theorem c8_counterexample :
    calculate_moving_averages ⟨[]⟩ 1 ≠ (⟨[]⟩ : ADF) := by
  decide

/-- Closed instance of c8_theorem with every hypothesis discharged. -/
theorem c8_witness :
    getCol (calculate_moving_averages ⟨[]⟩ 3) ("Date") = getCol (⟨[]⟩ : ADF) ("Date")
    ∧ calculate_moving_averages (calculate_moving_averages ⟨[]⟩ 3) 3 =
        calculate_moving_averages ⟨[]⟩ 3 :=
  c8_theorem ⟨[]⟩ 3 ("Date") (by decide) (by decide) (by decide) (by decide) (by decide)
    (by decide) (by decide) (by decide) (by decide) (by decide) (by decide) (by decide)
    (by decide) (by decide) (by decide)

theorem weekGrid_mem (lo hi l : ℤ) (hlo : lo ≤ l) (hhi : l ≤ hi)
    (hmod : (l - lo) % 7 = 0) : l ∈ weekGrid lo hi := by
  unfold weekGrid
  have hlt : ((l - lo) / 7).toNat < (hi - lo).toNat / 7 + 1 := by omega
  refine List.mem_map.2 ⟨((l - lo) / 7).toNat, List.mem_range.2 hlt, ?_⟩
  show lo + 7 * ((((l - lo) / 7).toNat : ℕ) : ℤ) = l
  omega

/-- C4 (amended).  The weekly resampler materializes the full regular grid
of week bins from the first to the last bin label of the data: a bin label
inside that span whose bin holds zero raw rows still appears in the
output, synthesized as a record with zero page and traffic sums (pandas
resample plus sum zero-fills gaps; monthly behaves the same way). -/
theorem c4_theorem (rows : List (ℤ × ℚ × ℚ)) (hne : rows ≠ []) (l : ℤ)
    (hlo : weekLabel (minIntD (rows.map (fun r => r.1))) ≤ l)
    (hhi : l ≤ weekLabel (maxIntD (rows.map (fun r => r.1))))
    (hmod : (l - weekLabel (minIntD (rows.map (fun r => r.1)))) % 7 = 0)
    (hempty : rows.filter (fun r => weekLabel r.1 = l) = []) :
    (l, (0 : ℚ), (0 : ℚ)) ∈ resampleWeekly rows := by
  unfold resampleWeekly
  rw [if_neg (show ¬ (rows.isEmpty = true) from fun h => hne (List.isEmpty_iff.1 h))]
  refine List.mem_map.2 ⟨l, weekGrid_mem _ _ _ hlo hhi hmod, ?_⟩
  unfold binPageSum binTrafficSum
  rw [hempty]
  rfl

/-- C4 counterexample: two raw rows two weeks apart resample to three
weekly records — the middle week, which holds zero raw rows, is
synthesized as a zero-valued record. -/
theorem c4_counterexample :
    resampleWeekly [((0 : ℤ), (1 : ℚ), (1 : ℚ)), (14, 2, 2)] =
      [(0, 1, 1), (7, 0, 0), (14, 2, 2)]
    ∧ [((0 : ℤ), (1 : ℚ), (1 : ℚ)), (14, 2, 2)].filter
        (fun r => weekLabel r.1 = 7) = [] := by
  exact ⟨by with_unfolding_all rfl, by decide⟩

/-- Closed instance of c4_theorem with every hypothesis discharged. -/
theorem c4_witness :
    ((7 : ℤ), (0 : ℚ), (0 : ℚ)) ∈
      resampleWeekly [((0 : ℤ), (1 : ℚ), (1 : ℚ)), (14, 2, 2)] :=
  c4_theorem [((0 : ℤ), (1 : ℚ), (1 : ℚ)), (14, 2, 2)] (by decide) 7
    (by decide) (by decide) (by decide) (by decide)

/-- C10.  In every nonempty classified series the first row always counts
as a ranking state change (its shifted comparand is missing), so the
state-change row set is never empty; consequently, for a series of exactly
one period the report generator always evaluates df.iloc[-2], which is out
of bounds, and report generation fails with an IndexError instead of
returning a report. -/
theorem c10_theorem :
    (∀ sm : List FVal, sm ≠ [] → changeIndices (rankingState sm) ≠ [])
    ∧ (∀ (d0 : ℤ) (pages : List ℚ) (tcr : List FVal) (s0 : FVal),
        generateRankingReport [d0] pages tcr [s0] = .error ()) := by
  constructor
  · intro sm hne
    have h0 : 0 ∈ changeIndices (rankingState sm) := by
      unfold changeIndices
      refine List.mem_filter.2 ⟨List.mem_range.2 ?_, by simp⟩
      rw [length_rankingState]
      exact List.length_pos.2 hne
    intro h
    rw [h] at h0
    exact absurd h0 (List.not_mem_nil 0)
  · intro d0 pages tcr s0
    with_unfolding_all rfl

/-- Closed instance of c10_theorem with every hypothesis discharged. -/
theorem c10_witness :
    changeIndices (rankingState [FVal.nan]) ≠ []
    ∧ generateRankingReport [0] [1] [FVal.nan] [FVal.nan] = .error () :=
  ⟨c10_theorem.1 [FVal.nan] (by decide), c10_theorem.2 0 [1] [FVal.nan] FVal.nan⟩

/-- C7 (amended).  The report generator omits a segment only when the
smoothed traffic-per-page at a boundary row is NaN.  A zero page count at
the segment start row is not checked: when the smoothed boundary values
are non-NaN (for example infinite, which pandas isna does not flag), the
final segment is emitted and its page-change value is positive infinity. -/
theorem c7_theorem (dates : List ℤ) (pages : List ℚ) (tcr sm : List FVal) (a : ℕ)
    (ha : (changeIndices (rankingState sm)).getD
        ((changeIndices (rankingState sm)).length - 1) 0 = a)
    (hch : changeIndices (rankingState sm) ≠ [])
    (h2 : ¬ (sm.length < 2))
    (hs : (sm.getD a FVal.nan).isna = false)
    (he : (sm.getD (sm.length - 1) FVal.nan).isna = false)
    (hp0 : pages.getD a 0 = 0)
    (hpe : 0 < pages.getD (pages.length - 1) 0) :
    ∃ es, generateRankingReport dates pages tcr sm = Except.ok es
      ∧ ∃ e ∈ es, e.pageChange = FVal.inf := by
  simp only [generateRankingReport]
  rw [if_neg (show ¬ ((changeIndices (rankingState sm)).isEmpty = true) from
    fun h => hch (List.isEmpty_iff.1 h))]
  rw [if_neg h2, ha, hs, he]
  simp only [Bool.not_false, Bool.and_self, if_true]
  refine ⟨_, rfl, ⟨_, List.mem_append_right _ (List.mem_singleton_self _), ?_⟩⟩
  show (((FVal.num (pages.getD (pages.length - 1) 0)).sub (FVal.num (pages.getD a 0))).div
      (FVal.num (pages.getD a 0))).mul (FVal.num 100) = FVal.inf
  rw [hp0, num_sub_num, sub_zero, div_zero_pos _ hpe, inf_mul_pos 100 (by norm_num)]

/-- C7 counterexample: a two-period series whose first period has zero
pages and positive traffic.  Its smoothed traffic-per-page at the segment
start is infinite, which passes the isna guard, so the final segment is
emitted with an infinite page-change value instead of being skipped. -/
theorem c7_counterexample :
    generateRankingReport [0, 1] [0, 5] (trafficChangeRate [10, 20])
        (rollingMean 1 (trafficPerPage [10, 20] [0, 5])) =
      Except.ok [⟨RState.Negative, 0, 1, FVal.inf, FVal.num 4, FVal.inf, FVal.num 100⟩] := by
  with_unfolding_all rfl

/-- Closed instance of c7_theorem with every hypothesis discharged. -/
theorem c7_witness :
    ∃ es, generateRankingReport [0, 1] [0, 5] [FVal.nan, FVal.num 100]
        [FVal.inf, FVal.num 4] = Except.ok es ∧ ∃ e ∈ es, e.pageChange = FVal.inf :=
  c7_theorem [0, 1] [0, 5] [FVal.nan, FVal.num 100] [FVal.inf, FVal.num 4] 0
    (by with_unfolding_all rfl) (by with_unfolding_all decide) (by decide)
    (by with_unfolding_all rfl) (by with_unfolding_all rfl) rfl (by norm_num)
